import Mathlib

/-!
Verification of the motion-based single-anchor localization pipeline
(`localization.py`): geometric candidate generation, the localization
trigger state machine, ambiguity resolution and Kalman-filter fusion.

Machine floats are modelled by real numbers.  NumPy arrays preallocated
with `np.zeros` are modelled by lists, and the NaN sentinel written by
`arr[0] = [None, None]` is modelled by `Option` with `none` standing for
NaN.  Division by zero follows Lean's `x / 0 = 0` convention; every place
where this matters is noted at the definition.
-/

namespace SALoc

open Real

/-- `np.linalg.norm` of a 2D vector. -/
noncomputable def norm2 (p : ℝ × ℝ) : ℝ := Real.sqrt (p.1 ^ 2 + p.2 ^ 2)

/-- Modelled from the spec: `Util.clamp` (the `utils` module is not under
`src/`); spec §4.2: "clamp(dr/s, −1, 1)" guards the arccos domain. -/
def clamp (x lo hi : ℝ) : ℝ := max lo (min x hi)

/-- Modelled from the spec: `Util.cos_similarity` (the `utils` module is not
under `src/`); spec glossary: "dot product of two vectors divided by the
product of their magnitudes". -/
noncomputable def cos_similarity (a b : ℝ × ℝ) : ℝ :=
  (a.1 * b.1 + a.2 * b.2) / (norm2 a * norm2 b)

/-- Modelled from the spec: `Util.closest_to` (the `utils` module is not
under `src/`); spec §4.4: "choose whichever of the current step's two
candidates is nearer (Euclidean distance) to that predicted position"
(the earlier candidate wins ties). -/
noncomputable def closest_to (target : ℝ × ℝ) (positions : List (ℝ × ℝ)) : ℝ × ℝ :=
  positions.foldl
    (fun best c =>
      if norm2 (c.1 - target.1, c.2 - target.2) <
          norm2 (best.1 - target.1, best.2 - target.2) then c else best)
    (positions.headD (0, 0))

/-- `np.arctan2 y x`, the angle of the vector `(x, y)`. -/
noncomputable def arctan2 (y x : ℝ) : ℝ := Complex.arg ⟨x, y⟩

/-- `BaseLocalization.calculate_possible_positions` (localization.py lines
54-61): the two candidate positions obtained from the filtered range `r`,
the filtered range rate `dr`, the current velocity measurement `v` and the
anchor position.  Lines 35-52 compute `r` and `dr` from the raw range
history; no claim depends on that computation, so they enter here as
inputs.  When `s = 0` the Python quotient `dr / s` is a float `inf`/`NaN`
while here `dr / 0 = 0`; in both semantics the function performs no
degenerate-velocity check and returns a pair unconditionally. -/
noncomputable def calculate_possible_positions (r dr : ℝ) (v anchor : ℝ × ℝ) :
    (ℝ × ℝ) × (ℝ × ℝ) :=
  let s := norm2 v
  let alpha := arctan2 v.2 v.1
  let theta := Real.arccos (clamp (dr / s) (-1) 1)
  ((r * Real.cos (alpha + theta) + anchor.1, r * Real.sin (alpha + theta) + anchor.2),
   (r * Real.cos (alpha - theta) + anchor.1, r * Real.sin (alpha - theta) + anchor.2))

/-- Reflection of the point `p` across the line through `anchor` with
direction vector `dirv` (the property side of claim C1). -/
noncomputable def reflect_across (anchor dirv p : ℝ × ℝ) : ℝ × ℝ :=
  let u := (dirv.1 / norm2 dirv, dirv.2 / norm2 dirv)
  let w := (p.1 - anchor.1, p.2 - anchor.2)
  let d := w.1 * u.1 + w.2 * u.2
  (anchor.1 + (2 * d * u.1 - w.1), anchor.2 + (2 * d * u.2 - w.2))

lemma norm2_pos_of_ne_zero {v : ℝ × ℝ} (hv : v ≠ 0) : 0 < norm2 v := by
  have h1 : v.1 ≠ 0 ∨ v.2 ≠ 0 := by
    by_contra hcon
    push_neg at hcon
    exact hv (Prod.ext hcon.1 hcon.2)
  have hpos : 0 < v.1 ^ 2 + v.2 ^ 2 := by
    rcases h1 with h | h
    · have := sq_nonneg v.2
      have h2 : 0 < v.1 ^ 2 := by positivity
      linarith
    · have := sq_nonneg v.1
      have h2 : 0 < v.2 ^ 2 := by positivity
      linarith
  exact Real.sqrt_pos.mpr hpos

lemma sq_norm2 (v : ℝ × ℝ) : norm2 v ^ 2 = v.1 ^ 2 + v.2 ^ 2 := by
  have h : 0 ≤ v.1 ^ 2 + v.2 ^ 2 := by positivity
  simp [norm2, Real.sq_sqrt h]

lemma cos_arctan2 {v : ℝ × ℝ} (hv : v ≠ 0) :
    Real.cos (arctan2 v.2 v.1) = v.1 / norm2 v := by
  have hz : (⟨v.1, v.2⟩ : ℂ) ≠ 0 := by
    intro h
    apply hv
    rw [Complex.ext_iff] at h
    simp only [Complex.zero_re, Complex.zero_im] at h
    exact Prod.ext h.1 h.2
  have habs : Complex.abs ⟨v.1, v.2⟩ = norm2 v := by
    rw [Complex.abs_apply, Complex.normSq_mk, norm2]
    congr 1
    ring
  rw [arctan2, Complex.cos_arg hz, habs]

lemma sin_arctan2 {v : ℝ × ℝ} (hv : v ≠ 0) :
    Real.sin (arctan2 v.2 v.1) = v.2 / norm2 v := by
  have hz : (⟨v.1, v.2⟩ : ℂ) ≠ 0 := by
    intro h
    apply hv
    rw [Complex.ext_iff] at h
    simp only [Complex.zero_re, Complex.zero_im] at h
    exact Prod.ext h.1 h.2
  have habs : Complex.abs ⟨v.1, v.2⟩ = norm2 v := by
    rw [Complex.abs_apply, Complex.normSq_mk, norm2]
    congr 1
    ring
  rw [arctan2, Complex.sin_arg, habs]

lemma norm2_polar (r phi : ℝ) (hr : 0 ≤ r) :
    norm2 (r * Real.cos phi, r * Real.sin phi) = r := by
  have h : (r * Real.cos phi) ^ 2 + (r * Real.sin phi) ^ 2 = r ^ 2 := by
    have := Real.sin_sq_add_cos_sq phi
    nlinarith
  rw [norm2, h, Real.sqrt_sq hr]

/-- C1: for filtered range `r > 0`, filtered range rate `dr` and non-zero
velocity `v`, candidate generation returns exactly the two positions
`anchor + r·(cos(α±θ), sin(α±θ))` with `α = atan2(v_y, v_x)` and
`θ = arccos(clamp(dr/|v|, −1, 1))`; both lie at distance exactly `r` from
the anchor, and they are reflections of each other across the line through
the anchor along the direction of `v`. -/
theorem C1_candidate_geometry (r dr : ℝ) (v anchor : ℝ × ℝ)
    (hr : 0 < r) (hv : v ≠ 0) :
    (calculate_possible_positions r dr v anchor).1 =
      (anchor.1 + r * Real.cos (arctan2 v.2 v.1 +
          Real.arccos (clamp (dr / norm2 v) (-1) 1)),
       anchor.2 + r * Real.sin (arctan2 v.2 v.1 +
          Real.arccos (clamp (dr / norm2 v) (-1) 1))) ∧
    (calculate_possible_positions r dr v anchor).2 =
      (anchor.1 + r * Real.cos (arctan2 v.2 v.1 -
          Real.arccos (clamp (dr / norm2 v) (-1) 1)),
       anchor.2 + r * Real.sin (arctan2 v.2 v.1 -
          Real.arccos (clamp (dr / norm2 v) (-1) 1))) ∧
    norm2 ((calculate_possible_positions r dr v anchor).1.1 - anchor.1,
           (calculate_possible_positions r dr v anchor).1.2 - anchor.2) = r ∧
    norm2 ((calculate_possible_positions r dr v anchor).2.1 - anchor.1,
           (calculate_possible_positions r dr v anchor).2.2 - anchor.2) = r ∧
    (calculate_possible_positions r dr v anchor).2 =
      reflect_across anchor v (calculate_possible_positions r dr v anchor).1 := by
  have hn : 0 < norm2 v := norm2_pos_of_ne_zero hv
  set a := arctan2 v.2 v.1 with ha
  set th := Real.arccos (clamp (dr / norm2 v) (-1) 1) with hth
  have hc : Real.cos a = v.1 / norm2 v := cos_arctan2 hv
  have hs : Real.sin a = v.2 / norm2 v := sin_arctan2 hv
  have hv1 : v.1 = norm2 v * Real.cos a := by
    rw [hc]; field_simp
  have hv2 : v.2 = norm2 v * Real.sin a := by
    rw [hs]; field_simp
  refine ⟨?_, ?_, ?_, ?_, ?_⟩
  · simp only [calculate_possible_positions, ← ha, ← hth, Prod.mk.injEq]
    constructor <;> ring
  · simp only [calculate_possible_positions, ← ha, ← hth, Prod.mk.injEq]
    constructor <;> ring
  · simp only [calculate_possible_positions, ← ha, ← hth]
    have : (r * Real.cos (a + th) + anchor.1 - anchor.1,
            r * Real.sin (a + th) + anchor.2 - anchor.2) =
           (r * Real.cos (a + th), r * Real.sin (a + th)) := by
      simp only [Prod.mk.injEq]
      constructor <;> ring
    rw [this, norm2_polar _ _ hr.le]
  · simp only [calculate_possible_positions, ← ha, ← hth]
    have : (r * Real.cos (a - th) + anchor.1 - anchor.1,
            r * Real.sin (a - th) + anchor.2 - anchor.2) =
           (r * Real.cos (a - th), r * Real.sin (a - th)) := by
      simp only [Prod.mk.injEq]
      constructor <;> ring
    rw [this, norm2_polar _ _ hr.le]
  · simp only [calculate_possible_positions, reflect_across, ← ha, ← hth]
    have hu1 : v.1 / norm2 v = Real.cos a := by rw [hc]
    have hu2 : v.2 / norm2 v = Real.sin a := by rw [hs]
    rw [hu1, hu2]
    have hid := Real.sin_sq_add_cos_sq a
    simp only [Prod.mk.injEq]
    constructor
    · rw [Real.cos_add, Real.sin_add, Real.cos_sub]
      linear_combination (-2 * r * Real.cos th * Real.cos a) * hid
    · rw [Real.cos_add, Real.sin_add, Real.sin_sub]
      linear_combination (-2 * r * Real.cos th * Real.sin a) * hid

/-- Witness for C1 at `r = 1`, `dr = 0`, `v = (1, 0)`, `anchor = (0, 0)`. -/
theorem C1_candidate_geometry_witness :
    (0:ℝ) < 1 ∧ ((1:ℝ), (0:ℝ)) ≠ (0, 0) ∧
    norm2 ((calculate_possible_positions 1 0 (1, 0) (0, 0)).1.1 - 0,
           (calculate_possible_positions 1 0 (1, 0) (0, 0)).1.2 - 0) = 1 := by
  have h1 : (0:ℝ) < 1 := by norm_num
  have h2 : ((1:ℝ), (0:ℝ)) ≠ ((0:ℝ), (0:ℝ)) := by
    intro h
    have := congrArg Prod.fst h
    norm_num at this
  exact ⟨h1, h2, (C1_candidate_geometry 1 0 (1, 0) (0, 0) h1 h2).2.2.1⟩

/-! ### The Kalman filter (filterpy.kalman.KalmanFilter, dim_x = dim_z = 4)

The repository drives an external `filterpy` filter through `predict()`,
`update(z)` and direct assignment of `kf.x`.  The standard filterpy
equations (constant matrices, no control input) are reproduced here. -/

/-- State of a `filterpy.kalman.KalmanFilter(4, 4)`: state vector `x`,
covariance `P`, and the configured matrices `F`, `Q`, `H`, `R`. -/
structure KFState where
  x : Fin 4 → ℝ
  P : Matrix (Fin 4) (Fin 4) ℝ
  F : Matrix (Fin 4) (Fin 4) ℝ
  Q : Matrix (Fin 4) (Fin 4) ℝ
  H : Matrix (Fin 4) (Fin 4) ℝ
  R : Matrix (Fin 4) (Fin 4) ℝ

/-- `np.concatenate((p, v))`: the 4-D measurement [position, velocity]. -/
def measVec (p v : ℝ × ℝ) : Fin 4 → ℝ := ![p.1, p.2, v.1, v.2]

/-- `KalmanFilter.predict()`: `x ← F x`, `P ← F P Fᵀ + Q`. -/
noncomputable def KFState.predict (k : KFState) : KFState :=
  { k with x := k.F.mulVec k.x, P := k.F * k.P * k.F.transpose + k.Q }

/-- `KalmanFilter.update(z)`: innovation `y = z − H x`, gain
`K = P Hᵀ (H P Hᵀ + R)⁻¹`, then `x ← x + K y` and the Joseph-form
covariance update `P ← (I − K H) P (I − K H)ᵀ + K R Kᵀ`. -/
noncomputable def KFState.update (k : KFState) (z : Fin 4 → ℝ) : KFState :=
  let y := z - k.H.mulVec k.x
  let S := k.H * k.P * k.H.transpose + k.R
  let K := k.P * k.H.transpose * S⁻¹
  let I_KH := (1 : Matrix (Fin 4) (Fin 4) ℝ) - K * k.H
  { k with x := k.x + K.mulVec y, P := I_KH * k.P * I_KH.transpose + K * k.R * K.transpose }

/-! ### The localization state machine (`MotionBasedLocalization`)

The per-run state mirrors the attributes set up by
`BaseLocalization.__init__` (lines 15-32) and
`MotionBasedLocalization.__init__` (lines 87-96).  The preallocated
`np.zeros` arrays are length-`count` lists; the NaN written into index 0 of
`measured_positions` and `chosen_measurements` is `none`.
`estimated_positions` receives no NaN in the source, so it stays a plain
list of points.  The raw-range bookkeeping (`filtered_r`, `filtered_dr`,
lines 29-30/51-52) feeds only `calculate_possible_positions`, whose
`r`/`dr` inputs are per-step inputs here; no claim mentions it. -/

structure LocState where
  localized : Bool
  idx_loc : ℕ
  prev_v : ℝ × ℝ
  measured_positions : List (Option ((ℝ × ℝ) × (ℝ × ℝ)))
  chosen_measurements : List (Option (ℝ × ℝ))
  estimated_positions : List (ℝ × ℝ)
  kf : Option KFState

/-- Per-step input from the `TwoRobotSystem` collaborator (module `robots`,
not under `src/`): the filtered range and range rate for this step, the
velocity measurement (`get_v_measurement`) and the anchor robot position. -/
structure StepInput where
  r : ℝ
  dr : ℝ
  v : ℝ × ℝ
  anchor : ℝ × ℝ

/-- `find_max_similarity` (localization.py lines 99-108): the nested loops
`for pos in new_positions: for prev in prev_positions:` keeping the pair of
strictly largest cosine similarity, starting from `max_sim = -2`,
`max_position = None`. -/
noncomputable def find_max_similarity (prev_positions new_positions : List (ℝ × ℝ)) :
    Option (ℝ × ℝ) :=
  (new_positions.foldl
    (fun acc pos =>
      prev_positions.foldl
        (fun acc2 prev =>
          if cos_similarity pos prev > acc2.1 then (cos_similarity pos prev, some pos)
          else acc2)
        acc)
    ((-2 : ℝ), (none : Option (ℝ × ℝ)))).2

/-- `list(range(max(self.idx_loc, i - window_length), i))` with
`window_length = 5` (line 119-120).  Python's `max(idx, i - 5)` on ints and
the truncated subtraction here agree because `idx ≥ 0`. -/
def windowOf (idx i : ℕ) : List ℕ := List.range' (max idx (i - 5)) (i - max idx (i - 5))

/-- `np.mean(..., axis=0)` of a list of 2D points. -/
noncomputable def meanPos (l : List (ℝ × ℝ)) : ℝ × ℝ :=
  ((l.map Prod.fst).sum / l.length, (l.map Prod.snd).sum / l.length)

/-- Line 121: the moving-average predicted position over the trailing
window.  Every index in the window lies in `[idx_loc, i)` and is written by
the time it is read in any run, so the `getD` default is never consulted
there. -/
noncomputable def predictedPos (st : LocState) (i : ℕ) : ℝ × ℝ :=
  meanPos ((windowOf st.idx_loc i).map fun j => st.estimated_positions.getD j (0, 0))

open Classical in
/-- One iteration of the loop body of `MotionBasedLocalization.run`
(lines 110-145) at loop index `i`.  Order follows the source: store the
candidate pair, branch on `self.localized`, and finally `prev_v = measured_v`.
In the trigger branch the source reads `measured_positions[i-1]`; the NaN
(`none`) case maps to an empty previous-candidate list, which like the
Python NaN comparisons leaves `max_position = None`; it is unreachable
because the trigger requires `i > 20` and indices `1..i-1` were written. -/
noncomputable def stepRun (st : LocState) (inp : StepInput) (i : ℕ) : LocState :=
  let mp := calculate_possible_positions inp.r inp.dr inp.v inp.anchor
  let m1 := mp.1
  let m2 := mp.2
  let st1 := { st with measured_positions := st.measured_positions.set i (some (m1, m2)) }
  let st2 :=
    if st1.localized then
      let prev_pos := predictedPos st1 i
      let closest := closest_to prev_pos [m1, m2]
      let st3 := { st1 with chosen_measurements := st1.chosen_measurements.set i (some closest) }
      match st3.kf with
      | some k =>
          let k2 := (k.predict).update (measVec closest inp.v)
          { st3 with kf := some k2,
                     estimated_positions := st3.estimated_positions.set i (k2.x 0, k2.x 1) }
      | none => { st3 with estimated_positions := st3.estimated_positions.set i closest }
    else
      if cos_similarity st1.prev_v inp.v < 0.97 ∧ 20 < i then
        let prevs :=
          match st1.measured_positions.getD (i - 1) none with
          | some q => [q.1, q.2]
          | none => []
        let max_pos := (find_max_similarity prevs [m1, m2]).getD (0, 0)
        { st1 with localized := true,
                   idx_loc := i,
                   estimated_positions := st1.estimated_positions.set i max_pos,
                   kf := st1.kf.map fun k => { k with x := measVec max_pos inp.v },
                   chosen_measurements := st1.chosen_measurements.set i (some max_pos) }
      else st1
  { st2 with prev_v := inp.v }

/-- `MotionBasedLocalization.__init__` (lines 87-96) on top of
`BaseLocalization.__init__` (lines 15-32).  `target_pos` and `anchor_pos`
are the robots' initial positions and `v0` the first velocity measurement,
all supplied by the `TwoRobotSystem` collaborator.  Note: no property of
`kf` is inspected — the filter is stored as given. -/
noncomputable def mbl_init (count : ℕ) (kf : Option KFState) (known_initial_pos : Bool)
    (target_pos anchor_pos v0 : ℝ × ℝ) : LocState :=
  let base : LocState :=
    { localized := false
      idx_loc := 0
      prev_v := v0
      measured_positions := (List.replicate count (some (((0:ℝ), (0:ℝ)), ((0:ℝ), (0:ℝ))))).set 0 none
      chosen_measurements := (List.replicate count (some ((0:ℝ), (0:ℝ)))).set 0 none
      estimated_positions := List.replicate count ((0:ℝ), (0:ℝ))
      kf := kf }
  if known_initial_pos then
    { base with localized := true
                idx_loc := 0
                estimated_positions := base.estimated_positions.set 0
                  (target_pos.1 - anchor_pos.1, target_pos.2 - anchor_pos.2) }
  else base

/-- The loop `for i in range(1, self.count)` of `run`, started at loop
index `start` (the full run is `runSteps st inputs 1`). -/
noncomputable def runSteps (st : LocState) (inputs : List StepInput) (start : ℕ) : LocState :=
  match inputs with
  | [] => st
  | inp :: rest => runSteps (stepRun st inp start) rest (start + 1)

/-! ### Basic lemmas about the state machine -/

lemma getD_set_self {α : Type} (l : List α) (i : ℕ) (a d : α) (h : i < l.length) :
    (l.set i a).getD i d = a := by
  simp [List.getD, List.getElem?_set_eq_of_lt a h]

lemma getD_set_ne {α : Type} (l : List α) {i j : ℕ} (a d : α) (h : i ≠ j) :
    (l.set i a).getD j d = l.getD j d := by
  simp [List.getD, List.getElem?_set_ne h]

/-- While Unlocalized, the else-branch of the loop body (lines 130-144)
decides state and index. -/
lemma stepRun_unlocalized (st : LocState) (inp : StepInput) (i : ℕ)
    (h : st.localized = false) :
    (stepRun st inp i).localized =
      decide (cos_similarity st.prev_v inp.v < 0.97 ∧ 20 < i) ∧
    (stepRun st inp i).idx_loc =
      (if cos_similarity st.prev_v inp.v < 0.97 ∧ 20 < i then i else st.idx_loc) := by
  simp only [stepRun, h, Bool.false_eq_true, if_false]
  by_cases hc : cos_similarity st.prev_v inp.v < 0.97 ∧ 20 < i
  · rw [if_pos hc, if_pos hc]
    simp [hc]
  · rw [if_neg hc, if_neg hc]
    simp [h, hc]

/-- Once Localized, one step keeps the state Localized and the recorded
index unchanged (the localized branch, lines 117-129, touches neither). -/
lemma stepRun_localized_mono (st : LocState) (inp : StepInput) (i : ℕ)
    (h : st.localized = true) :
    (stepRun st inp i).localized = true ∧ (stepRun st inp i).idx_loc = st.idx_loc := by
  simp only [stepRun, h, if_true]
  cases hkf : st.kf <;> simp [hkf]

lemma runSteps_localized_mono (inputs : List StepInput) (st : LocState) (start : ℕ)
    (h : st.localized = true) :
    (runSteps st inputs start).localized = true ∧
    (runSteps st inputs start).idx_loc = st.idx_loc := by
  induction inputs generalizing st start with
  | nil => exact ⟨h, rfl⟩
  | cons inp rest ih =>
      simp only [runSteps]
      obtain ⟨h1, h2⟩ := stepRun_localized_mono st inp start h
      obtain ⟨h3, h4⟩ := ih (stepRun st inp start) (start + 1) h1
      exact ⟨h3, h4.trans h2⟩

lemma runSteps_append (st : LocState) (l1 l2 : List StepInput) (s : ℕ) :
    runSteps st (l1 ++ l2) s = runSteps (runSteps st l1 s) l2 (s + l1.length) := by
  induction l1 generalizing st s with
  | nil => simp [runSteps]
  | cons a t ih =>
      simp only [List.cons_append, runSteps, List.length_cons, List.append_eq]
      rw [ih]
      congr 1
      omega

/-- C2: while the state is Unlocalized, the transition to Localized happens
at loop index `i` if and only if the cosine similarity between the current
and previous velocity vectors is strictly below `0.97` and `i > 20`; at a
transition the current index is recorded as the localization index, and
otherwise state and index are unchanged. -/
theorem C2_trigger_iff (st : LocState) (inp : StepInput) (i : ℕ)
    (h : st.localized = false) :
    ((stepRun st inp i).localized = true ↔
      (cos_similarity st.prev_v inp.v < 0.97 ∧ 20 < i)) ∧
    (cos_similarity st.prev_v inp.v < 0.97 ∧ 20 < i →
      (stepRun st inp i).idx_loc = i) ∧
    (¬(cos_similarity st.prev_v inp.v < 0.97 ∧ 20 < i) →
      (stepRun st inp i).localized = false ∧
      (stepRun st inp i).idx_loc = st.idx_loc) := by
  obtain ⟨h1, h2⟩ := stepRun_unlocalized st inp i h
  refine ⟨?_, ?_, ?_⟩
  · rw [h1]
    simp
  · intro hc
    rw [h2, if_pos hc]
  · intro hc
    rw [h1, h2, if_neg hc]
    simp [hc]

/-- A concrete Unlocalized state for the C2 witness. -/
noncomputable def exStC2 : LocState where
  localized := false
  idx_loc := 0
  prev_v := (1, 0)
  measured_positions := List.replicate 30 (some (((0:ℝ), (0:ℝ)), ((0:ℝ), (0:ℝ))))
  chosen_measurements := List.replicate 30 (some ((0:ℝ), (0:ℝ)))
  estimated_positions := List.replicate 30 ((0:ℝ), (0:ℝ))
  kf := none

/-- A concrete step input for the C2 witness. -/
noncomputable def exInpC2 : StepInput where
  r := 1
  dr := 0
  v := (0, 1)
  anchor := (0, 0)

/-- Witness for C2 at a concrete Unlocalized state and loop index 21. -/
theorem C2_trigger_iff_witness :
    exStC2.localized = false ∧
    (((stepRun exStC2 exInpC2 21).localized = true ↔
       (cos_similarity exStC2.prev_v exInpC2.v < 0.97 ∧ 20 < 21)) ∧
     (cos_similarity exStC2.prev_v exInpC2.v < 0.97 ∧ 20 < 21 →
       (stepRun exStC2 exInpC2 21).idx_loc = 21) ∧
     (¬(cos_similarity exStC2.prev_v exInpC2.v < 0.97 ∧ 20 < 21) →
       (stepRun exStC2 exInpC2 21).localized = false ∧
       (stepRun exStC2 exInpC2 21).idx_loc = exStC2.idx_loc)) :=
  ⟨rfl, C2_trigger_iff exStC2 exInpC2 21 rfl⟩

/-- C3: the localization state is monotonic within a run and the recorded
localization index never changes after it is set: for any two prefixes of
the input stream with `i ≤ j` steps executed, if the state is Localized
after `i` steps it is Localized after `j` steps with the same index
(the trigger branch is structurally unreachable once `localized` holds). -/
theorem C3_localized_monotone (st : LocState) (inputs : List StepInput) (i j : ℕ)
    (hij : i ≤ j)
    (h : (runSteps st (inputs.take i) 1).localized = true) :
    (runSteps st (inputs.take j) 1).localized = true ∧
    (runSteps st (inputs.take j) 1).idx_loc =
      (runSteps st (inputs.take i) 1).idx_loc := by
  have hj : i + (j - i) = j := by omega
  have hsplit : inputs.take j = inputs.take i ++ (inputs.drop i).take (j - i) := by
    rw [← List.take_add, hj]
  rw [hsplit, runSteps_append]
  exact runSteps_localized_mono _ _ _ h

/-- A concrete already-Localized state for the C3 witness. -/
noncomputable def exStC3 : LocState where
  localized := true
  idx_loc := 7
  prev_v := (1, 0)
  measured_positions := List.replicate 30 (some (((0:ℝ), (0:ℝ)), ((0:ℝ), (0:ℝ))))
  chosen_measurements := List.replicate 30 (some ((0:ℝ), (0:ℝ)))
  estimated_positions := List.replicate 30 ((0:ℝ), (0:ℝ))
  kf := none

/-- A concrete step input for the C3 witness. -/
noncomputable def exInpC3 : StepInput where
  r := 1
  dr := 0
  v := (1, 0)
  anchor := (0, 0)

/-- Witness for C3: a one-step run from a Localized state. -/
theorem C3_localized_monotone_witness :
    (0 ≤ 1 ∧ (runSteps exStC3 (List.take 0 [exInpC3]) 1).localized = true) ∧
    ((runSteps exStC3 (List.take 1 [exInpC3]) 1).localized = true ∧
     (runSteps exStC3 (List.take 1 [exInpC3]) 1).idx_loc =
       (runSteps exStC3 (List.take 0 [exInpC3]) 1).idx_loc) :=
  ⟨⟨Nat.zero_le 1, rfl⟩, C3_localized_monotone exStC3 [exInpC3] 0 1 (Nat.zero_le 1) rfl⟩

/-! ### The post-localization resolver (claim C5) -/

/-- `Util.closest_to` on a two-candidate list: the second candidate is
chosen exactly when it is strictly nearer to the target. -/
lemma closest_to_pair (t m1 m2 : ℝ × ℝ) :
    closest_to t [m1, m2] =
      if norm2 (m2.1 - t.1, m2.2 - t.2) < norm2 (m1.1 - t.1, m1.2 - t.2) then m2
      else m1 := by
  simp only [closest_to, List.foldl, List.headD]
  rw [if_neg (lt_irrefl _)]

/-- Once Localized, the loop body records the candidate closest to the
trailing-window mean as the chosen measurement (lines 117-123). -/
lemma stepRun_localized_chosen (st : LocState) (inp : StepInput) (i : ℕ)
    (h : st.localized = true) :
    (stepRun st inp i).chosen_measurements =
      st.chosen_measurements.set i (some (closest_to (predictedPos st i)
        [(calculate_possible_positions inp.r inp.dr inp.v inp.anchor).1,
         (calculate_possible_positions inp.r inp.dr inp.v inp.anchor).2])) := by
  simp only [stepRun, h, if_true]
  cases hkf : st.kf <;> simp only [hkf] <;> rfl

/-- C5: on every step taken while already Localized, the chosen measurement
is whichever of the two current candidates is nearer (Euclidean distance)
to the mean of the estimated positions over the trailing window; that
window has at most 5 indices and none of them is below the localization
index. -/
theorem C5_post_localization_resolver (st : LocState) (inp : StepInput) (i : ℕ)
    (h : st.localized = true) (hlen : i < st.chosen_measurements.length) :
    (stepRun st inp i).chosen_measurements.getD i none =
      some (closest_to (predictedPos st i)
        [(calculate_possible_positions inp.r inp.dr inp.v inp.anchor).1,
         (calculate_possible_positions inp.r inp.dr inp.v inp.anchor).2]) ∧
    predictedPos st i =
      meanPos ((windowOf st.idx_loc i).map fun j =>
        st.estimated_positions.getD j (0, 0)) ∧
    (∀ j ∈ windowOf st.idx_loc i, st.idx_loc ≤ j ∧ j < i) ∧
    (windowOf st.idx_loc i).length ≤ 5 ∧
    (∀ c1 c2 : ℝ × ℝ,
      norm2 (c1.1 - (predictedPos st i).1, c1.2 - (predictedPos st i).2) <
        norm2 (c2.1 - (predictedPos st i).1, c2.2 - (predictedPos st i).2) →
      closest_to (predictedPos st i) [c1, c2] = c1) ∧
    (∀ c1 c2 : ℝ × ℝ,
      norm2 (c2.1 - (predictedPos st i).1, c2.2 - (predictedPos st i).2) <
        norm2 (c1.1 - (predictedPos st i).1, c1.2 - (predictedPos st i).2) →
      closest_to (predictedPos st i) [c1, c2] = c2) := by
  refine ⟨?_, rfl, ?_, ?_, ?_, ?_⟩
  · rw [stepRun_localized_chosen st inp i h, getD_set_self _ _ _ _ hlen]
  · intro j hj
    rw [windowOf, List.mem_range'_1] at hj
    omega
  · rw [windowOf]
    simp only [List.length_range']
    omega
  · intro c1 c2 hc
    rw [closest_to_pair, if_neg (not_lt.mpr hc.le)]
  · intro c1 c2 hc
    rw [closest_to_pair, if_pos hc]

/-- A concrete Localized state for the C5 witness. -/
noncomputable def exStC5 : LocState where
  localized := true
  idx_loc := 7
  prev_v := (1, 0)
  measured_positions := List.replicate 30 (some (((0:ℝ), (0:ℝ)), ((0:ℝ), (0:ℝ))))
  chosen_measurements := List.replicate 30 (some ((0:ℝ), (0:ℝ)))
  estimated_positions := List.replicate 30 ((0:ℝ), (0:ℝ))
  kf := none

/-- A concrete step input for the C5 witness. -/
noncomputable def exInpC5 : StepInput where
  r := 2
  dr := 0
  v := (1, 0)
  anchor := (0, 0)

/-- Witness for C5 at a concrete Localized state and loop index 9. -/
theorem C5_post_localization_resolver_witness :
    (exStC5.localized = true ∧ 9 < exStC5.chosen_measurements.length) ∧
    ((stepRun exStC5 exInpC5 9).chosen_measurements.getD 9 none =
      some (closest_to (predictedPos exStC5 9)
        [(calculate_possible_positions exInpC5.r exInpC5.dr exInpC5.v exInpC5.anchor).1,
         (calculate_possible_positions exInpC5.r exInpC5.dr exInpC5.v exInpC5.anchor).2]) ∧
     predictedPos exStC5 9 =
      meanPos ((windowOf exStC5.idx_loc 9).map fun j =>
        exStC5.estimated_positions.getD j (0, 0)) ∧
     (∀ j ∈ windowOf exStC5.idx_loc 9, exStC5.idx_loc ≤ j ∧ j < 9) ∧
     (windowOf exStC5.idx_loc 9).length ≤ 5 ∧
     (∀ c1 c2 : ℝ × ℝ,
       norm2 (c1.1 - (predictedPos exStC5 9).1, c1.2 - (predictedPos exStC5 9).2) <
         norm2 (c2.1 - (predictedPos exStC5 9).1, c2.2 - (predictedPos exStC5 9).2) →
       closest_to (predictedPos exStC5 9) [c1, c2] = c1) ∧
     (∀ c1 c2 : ℝ × ℝ,
       norm2 (c2.1 - (predictedPos exStC5 9).1, c2.2 - (predictedPos exStC5 9).2) <
         norm2 (c1.1 - (predictedPos exStC5 9).1, c1.2 - (predictedPos exStC5 9).2) →
       closest_to (predictedPos exStC5 9) [c1, c2] = c2)) :=
  ⟨⟨rfl, by simp [exStC5]⟩,
   C5_post_localization_resolver exStC5 exInpC5 9 rfl (by simp [exStC5])⟩

/-- C6 (evaluation of the code at zero velocity): candidate generation has
no degenerate-velocity check; at `r = 1`, `dr = 1`, `v = (0, 0)`,
`anchor = (0, 0)` it still returns the numeric pair `((0, 1), (0, -1))`
(under the real-division convention `dr / 0 = 0`; the Python float
semantics silently yields `inf`/`NaN` positions instead — in neither case
is an explicit DegenerateVelocity result reported). -/
theorem C6_zero_velocity_returns_positions :
    calculate_possible_positions 1 1 ((0:ℝ), (0:ℝ)) ((0:ℝ), (0:ℝ)) =
      ((0, 1), (0, -1)) := by
  have hs : norm2 ((0:ℝ), (0:ℝ)) = 0 := by simp [norm2]
  have ha : arctan2 (0:ℝ) (0:ℝ) = 0 := by
    have h0 : (⟨0, 0⟩ : ℂ) = 0 := by
      simp [Complex.ext_iff]
    rw [arctan2, h0, Complex.arg_zero]
  have hcl : clamp ((1:ℝ) / 0) (-1) 1 = 0 := by
    norm_num [clamp]
  simp only [calculate_possible_positions, hs, ha, hcl, Real.arccos_zero, zero_add,
    zero_sub, Real.cos_pi_div_two, Real.sin_pi_div_two, Real.cos_neg, Real.sin_neg,
    Prod.mk.injEq]
  norm_num

/-! ### The transition-step resolver (claim C4) -/

lemma norm2_nonneg (p : ℝ × ℝ) : 0 ≤ norm2 p := Real.sqrt_nonneg _

/-- Cauchy-Schwarz gives the usual lower bound; with the junk value
`0 / 0 = 0` at a zero vector the bound still holds. -/
lemma neg_one_le_cos_similarity (a b : ℝ × ℝ) : -1 ≤ cos_similarity a b := by
  unfold cos_similarity
  rcases eq_or_lt_of_le (mul_nonneg (norm2_nonneg a) (norm2_nonneg b)) with hz | hpos
  · rw [← hz, div_zero]
    norm_num
  · rw [le_div_iff₀ hpos]
    have hcs : (a.1 * b.1 + a.2 * b.2) ^ 2 ≤ (norm2 a * norm2 b) ^ 2 := by
      have h1 := sq_norm2 a
      have h2 := sq_norm2 b
      have key : (a.1 * b.1 + a.2 * b.2) ^ 2 ≤
          (a.1 ^ 2 + a.2 ^ 2) * (b.1 ^ 2 + b.2 ^ 2) := by
        nlinarith [sq_nonneg (a.1 * b.2 - a.2 * b.1)]
      calc (a.1 * b.1 + a.2 * b.2) ^ 2
          ≤ (a.1 ^ 2 + a.2 ^ 2) * (b.1 ^ 2 + b.2 ^ 2) := key
        _ = (norm2 a * norm2 b) ^ 2 := by rw [mul_pow, h1, h2]
    nlinarith [sq_nonneg (a.1 * b.1 + a.2 * b.2 + norm2 a * norm2 b)]

lemma neg_two_lt_cos_similarity (a b : ℝ × ℝ) : (-2:ℝ) < cos_similarity a b :=
  lt_of_lt_of_le (by norm_num) (neg_one_le_cos_similarity a b)

/-- `find_max_similarity` on two previous and two new candidates returns a
new candidate attaining the maximal cosine similarity over all four
pairings. -/
lemma find_max_spec (p1 p2 m1 m2 : ℝ × ℝ) :
    ∃ best q, find_max_similarity [p1, p2] [m1, m2] = some best ∧
      (best = m1 ∨ best = m2) ∧ (q = p1 ∨ q = p2) ∧
      ∀ m q', (m = m1 ∨ m = m2) → (q' = p1 ∨ q' = p2) →
        cos_similarity m q' ≤ cos_similarity best q := by
  have hb : cos_similarity m1 p1 > (-2:ℝ) := neg_two_lt_cos_similarity m1 p1
  simp only [find_max_similarity, List.foldl]
  rw [if_pos hb]
  by_cases h12 : cos_similarity m1 p2 > cos_similarity m1 p1
  · rw [if_pos h12]
    by_cases h21 : cos_similarity m2 p1 > cos_similarity m1 p2
    · rw [if_pos h21]
      by_cases h22 : cos_similarity m2 p2 > cos_similarity m2 p1
      · rw [if_pos h22]
        refine ⟨m2, p2, rfl, Or.inr rfl, Or.inr rfl, ?_⟩
        intro m q' hm hq'
        rcases hm with rfl | rfl <;> rcases hq' with rfl | rfl <;> linarith
      · rw [if_neg h22]
        refine ⟨m2, p1, rfl, Or.inr rfl, Or.inl rfl, ?_⟩
        intro m q' hm hq'
        rcases hm with rfl | rfl <;> rcases hq' with rfl | rfl <;> linarith
    · rw [if_neg h21]
      by_cases h22 : cos_similarity m2 p2 > cos_similarity m1 p2
      · rw [if_pos h22]
        refine ⟨m2, p2, rfl, Or.inr rfl, Or.inr rfl, ?_⟩
        intro m q' hm hq'
        rcases hm with rfl | rfl <;> rcases hq' with rfl | rfl <;> linarith
      · rw [if_neg h22]
        refine ⟨m1, p2, rfl, Or.inl rfl, Or.inr rfl, ?_⟩
        intro m q' hm hq'
        rcases hm with rfl | rfl <;> rcases hq' with rfl | rfl <;> linarith
  · rw [if_neg h12]
    by_cases h21 : cos_similarity m2 p1 > cos_similarity m1 p1
    · rw [if_pos h21]
      by_cases h22 : cos_similarity m2 p2 > cos_similarity m2 p1
      · rw [if_pos h22]
        refine ⟨m2, p2, rfl, Or.inr rfl, Or.inr rfl, ?_⟩
        intro m q' hm hq'
        rcases hm with rfl | rfl <;> rcases hq' with rfl | rfl <;> linarith
      · rw [if_neg h22]
        refine ⟨m2, p1, rfl, Or.inr rfl, Or.inl rfl, ?_⟩
        intro m q' hm hq'
        rcases hm with rfl | rfl <;> rcases hq' with rfl | rfl <;> linarith
    · rw [if_neg h21]
      by_cases h22 : cos_similarity m2 p2 > cos_similarity m1 p1
      · rw [if_pos h22]
        refine ⟨m2, p2, rfl, Or.inr rfl, Or.inr rfl, ?_⟩
        intro m q' hm hq'
        rcases hm with rfl | rfl <;> rcases hq' with rfl | rfl <;> linarith
      · rw [if_neg h22]
        refine ⟨m1, p1, rfl, Or.inl rfl, Or.inl rfl, ?_⟩
        intro m q' hm hq'
        rcases hm with rfl | rfl <;> rcases hq' with rfl | rfl <;> linarith

/-- Effect of the trigger branch (lines 132-144) on the history arrays and
the filter, given what the previous step's candidate pair was. -/
lemma stepRun_trigger (st : LocState) (inp : StepInput) (i : ℕ) (p1 p2 : ℝ × ℝ)
    (h : st.localized = false)
    (hc : cos_similarity st.prev_v inp.v < 0.97 ∧ 20 < i)
    (hprev : st.measured_positions.getD (i - 1) none = some (p1, p2)) :
    (stepRun st inp i).chosen_measurements =
      st.chosen_measurements.set i (some ((find_max_similarity [p1, p2]
        [(calculate_possible_positions inp.r inp.dr inp.v inp.anchor).1,
         (calculate_possible_positions inp.r inp.dr inp.v inp.anchor).2]).getD (0, 0))) ∧
    (stepRun st inp i).estimated_positions =
      st.estimated_positions.set i ((find_max_similarity [p1, p2]
        [(calculate_possible_positions inp.r inp.dr inp.v inp.anchor).1,
         (calculate_possible_positions inp.r inp.dr inp.v inp.anchor).2]).getD (0, 0)) ∧
    (stepRun st inp i).kf = st.kf.map fun k =>
      { k with x := (measVec ((find_max_similarity [p1, p2]
          [(calculate_possible_positions inp.r inp.dr inp.v inp.anchor).1,
           (calculate_possible_positions inp.r inp.dr inp.v inp.anchor).2]).getD (0, 0))
          inp.v) } := by
  have hne : i ≠ i - 1 := by omega
  have hread : (st.measured_positions.set i
      (some ((calculate_possible_positions inp.r inp.dr inp.v inp.anchor).1,
             (calculate_possible_positions inp.r inp.dr inp.v inp.anchor).2))).getD
        (i - 1) none = some (p1, p2) := by
    rw [getD_set_ne _ _ _ hne]
    exact hprev
  simp only [stepRun, h, Bool.false_eq_true, if_false]
  rw [if_pos hc, hread]
  exact ⟨rfl, rfl, rfl⟩

/-- C4: at the transition step the chosen position (and, filterless, the
estimate) is the current-step candidate maximizing cosine similarity over
the four pairings of the current two candidates with the previous step's
two candidates. -/
theorem C4_transition_chooses_max_similarity (st : LocState) (inp : StepInput)
    (i : ℕ) (p1 p2 : ℝ × ℝ)
    (h : st.localized = false)
    (hsim : cos_similarity st.prev_v inp.v < 0.97) (hi : 20 < i)
    (hprev : st.measured_positions.getD (i - 1) none = some (p1, p2))
    (hlc : i < st.chosen_measurements.length)
    (hle : i < st.estimated_positions.length) :
    ∃ best,
      (stepRun st inp i).chosen_measurements.getD i none = some best ∧
      (stepRun st inp i).estimated_positions.getD i (0, 0) = best ∧
      (best = (calculate_possible_positions inp.r inp.dr inp.v inp.anchor).1 ∨
       best = (calculate_possible_positions inp.r inp.dr inp.v inp.anchor).2) ∧
      ∃ q, (q = p1 ∨ q = p2) ∧
        ∀ m q',
          (m = (calculate_possible_positions inp.r inp.dr inp.v inp.anchor).1 ∨
           m = (calculate_possible_positions inp.r inp.dr inp.v inp.anchor).2) →
          (q' = p1 ∨ q' = p2) →
          cos_similarity m q' ≤ cos_similarity best q := by
  obtain ⟨best, q, hfm, hbm, hqm, hmax⟩ := find_max_spec p1 p2
    (calculate_possible_positions inp.r inp.dr inp.v inp.anchor).1
    (calculate_possible_positions inp.r inp.dr inp.v inp.anchor).2
  obtain ⟨hch, hest, _⟩ := stepRun_trigger st inp i p1 p2 h ⟨hsim, hi⟩ hprev
  refine ⟨best, ?_, ?_, hbm, q, hqm, hmax⟩
  · rw [hch, hfm, Option.getD_some, getD_set_self _ _ _ _ hlc]
  · rw [hest, hfm, Option.getD_some, getD_set_self _ _ _ _ hle]

/-- A concrete Unlocalized state for the C4 witness; the previous step's
candidate pair is `((1, 0), (0, 1))`. -/
noncomputable def exStC4 : LocState where
  localized := false
  idx_loc := 0
  prev_v := (1, 0)
  measured_positions := List.replicate 30 (some (((1:ℝ), (0:ℝ)), ((0:ℝ), (1:ℝ))))
  chosen_measurements := List.replicate 30 (some ((0:ℝ), (0:ℝ)))
  estimated_positions := List.replicate 30 ((0:ℝ), (0:ℝ))
  kf := none

/-- A concrete step input for the C4 witness: the velocity turns from
`(1, 0)` to `(0, 1)`, so the cosine similarity drops to 0. -/
noncomputable def exInpC4 : StepInput where
  r := 1
  dr := 0
  v := (0, 1)
  anchor := (0, 0)

/-- Witness for C4 at loop index 21. -/
theorem C4_transition_chooses_max_similarity_witness :
    (exStC4.localized = false ∧
     cos_similarity exStC4.prev_v exInpC4.v < 0.97 ∧ 20 < 21 ∧
     exStC4.measured_positions.getD (21 - 1) none = some ((1, 0), (0, 1)) ∧
     21 < exStC4.chosen_measurements.length ∧
     21 < exStC4.estimated_positions.length) ∧
    (∃ best,
      (stepRun exStC4 exInpC4 21).chosen_measurements.getD 21 none = some best ∧
      (stepRun exStC4 exInpC4 21).estimated_positions.getD 21 (0, 0) = best ∧
      (best = (calculate_possible_positions exInpC4.r exInpC4.dr exInpC4.v exInpC4.anchor).1 ∨
       best = (calculate_possible_positions exInpC4.r exInpC4.dr exInpC4.v exInpC4.anchor).2) ∧
      ∃ q, (q = ((1:ℝ), (0:ℝ)) ∨ q = ((0:ℝ), (1:ℝ))) ∧
        ∀ m q',
          (m = (calculate_possible_positions exInpC4.r exInpC4.dr exInpC4.v exInpC4.anchor).1 ∨
           m = (calculate_possible_positions exInpC4.r exInpC4.dr exInpC4.v exInpC4.anchor).2) →
          (q' = ((1:ℝ), (0:ℝ)) ∨ q' = ((0:ℝ), (1:ℝ))) →
          cos_similarity m q' ≤ cos_similarity best q) := by
  have hsim : cos_similarity exStC4.prev_v exInpC4.v < 0.97 := by
    norm_num [cos_similarity, norm2, exStC4, exInpC4]
  have hprev : exStC4.measured_positions.getD (21 - 1) none =
      some (((1:ℝ), (0:ℝ)), ((0:ℝ), (1:ℝ))) := by
    simp [exStC4, List.getD_eq_getElem?_getD, List.getElem?_replicate]
  have hlc : 21 < exStC4.chosen_measurements.length := by simp [exStC4]
  have hle : 21 < exStC4.estimated_positions.length := by simp [exStC4]
  exact ⟨⟨rfl, hsim, by norm_num, hprev, hlc, hle⟩,
    C4_transition_chooses_max_similarity exStC4 exInpC4 21 (1, 0) (0, 1)
      rfl hsim (by norm_num) hprev hlc hle⟩

/-! ### Filter usage along the run (claims C7, C8) -/

/-- Once Localized with a filter attached, the loop body performs predict
then update with the concatenated 4-D measurement and stores the filter
position components as the estimate (lines 125-129). -/
lemma stepRun_localized_kf (st : LocState) (inp : StepInput) (i : ℕ) (k : KFState)
    (h : st.localized = true) (hk : st.kf = some k) :
    (stepRun st inp i).kf = some (KFState.update (KFState.predict k)
      (measVec (closest_to (predictedPos st i)
        [(calculate_possible_positions inp.r inp.dr inp.v inp.anchor).1,
         (calculate_possible_positions inp.r inp.dr inp.v inp.anchor).2]) inp.v)) ∧
    (stepRun st inp i).estimated_positions =
      st.estimated_positions.set i
        ((KFState.update (KFState.predict k)
          (measVec (closest_to (predictedPos st i)
            [(calculate_possible_positions inp.r inp.dr inp.v inp.anchor).1,
             (calculate_possible_positions inp.r inp.dr inp.v inp.anchor).2]) inp.v)).x 0,
         (KFState.update (KFState.predict k)
          (measVec (closest_to (predictedPos st i)
            [(calculate_possible_positions inp.r inp.dr inp.v inp.anchor).1,
             (calculate_possible_positions inp.r inp.dr inp.v inp.anchor).2]) inp.v)).x 1) := by
  simp only [stepRun, h, if_true, hk]
  exact ⟨rfl, rfl⟩

/-- Once Localized with no filter, the estimate is the chosen measurement
itself (line 129 with the `if self.kf` branch skipped). -/
lemma stepRun_localized_est_nokf (st : LocState) (inp : StepInput) (i : ℕ)
    (h : st.localized = true) (hkf : st.kf = none) :
    (stepRun st inp i).estimated_positions =
      st.estimated_positions.set i (closest_to (predictedPos st i)
        [(calculate_possible_positions inp.r inp.dr inp.v inp.anchor).1,
         (calculate_possible_positions inp.r inp.dr inp.v inp.anchor).2]) := by
  simp only [stepRun, h, if_true, hkf]
  rfl

/-- While Unlocalized with the trigger condition false, the loop body leaves
the filter and both history arrays untouched. -/
lemma stepRun_no_trigger (st : LocState) (inp : StepInput) (i : ℕ)
    (h : st.localized = false)
    (hnc : ¬(cos_similarity st.prev_v inp.v < 0.97 ∧ 20 < i)) :
    (stepRun st inp i).kf = st.kf ∧
    (stepRun st inp i).estimated_positions = st.estimated_positions ∧
    (stepRun st inp i).chosen_measurements = st.chosen_measurements := by
  simp only [stepRun, h, Bool.false_eq_true, if_false]
  rw [if_neg hnc]
  exact ⟨rfl, rfl, rfl⟩

/-- The filter state after the predict-update cycle of one Localized step:
`update(predict(k), [chosen position, measured velocity])`. -/
noncomputable def fusedKF (k : KFState) (st : LocState) (inp : StepInput) (i : ℕ) : KFState :=
  KFState.update (KFState.predict k)
    (measVec (closest_to (predictedPos st i)
      [(calculate_possible_positions inp.r inp.dr inp.v inp.anchor).1,
       (calculate_possible_positions inp.r inp.dr inp.v inp.anchor).2]) inp.v)

/-- C8: with a filter attached — at the transition step the filter state is
assigned directly to [chosen position, measured velocity] with no predict
or update (all other filter fields unchanged); on a step taken while
already Localized the filter performs predict then update with the
concatenated 4-D measurement and its position components become the
estimate; while Unlocalized without a trigger the filter is untouched. -/
theorem C8_filter_usage (st : LocState) (inp : StepInput) (i : ℕ) (k : KFState)
    (p1 p2 : ℝ × ℝ)
    (hk : st.kf = some k)
    (hprev : st.measured_positions.getD (i - 1) none = some (p1, p2)) :
    (st.localized = true →
      (stepRun st inp i).kf = some (fusedKF k st inp i)) ∧
    (st.localized = true → i < st.estimated_positions.length →
      (stepRun st inp i).estimated_positions.getD i (0, 0) =
        ((fusedKF k st inp i).x 0, (fusedKF k st inp i).x 1)) ∧
    (st.localized = false → cos_similarity st.prev_v inp.v < 0.97 → 20 < i →
      (stepRun st inp i).kf =
        some { k with x := (measVec ((find_max_similarity [p1, p2]
          [(calculate_possible_positions inp.r inp.dr inp.v inp.anchor).1,
           (calculate_possible_positions inp.r inp.dr inp.v inp.anchor).2]).getD (0, 0))
          inp.v) }) ∧
    (st.localized = false → ¬(cos_similarity st.prev_v inp.v < 0.97 ∧ 20 < i) →
      (stepRun st inp i).kf = some k) := by
  refine ⟨?_, ?_, ?_, ?_⟩
  · intro h
    exact (stepRun_localized_kf st inp i k h hk).1
  · intro h hlen
    rw [(stepRun_localized_kf st inp i k h hk).2, getD_set_self _ _ _ _ hlen]
    rfl
  · intro h hsim hi
    rw [(stepRun_trigger st inp i p1 p2 h ⟨hsim, hi⟩ hprev).2.2, hk]
    rfl
  · intro h hnc
    rw [(stepRun_no_trigger st inp i h hnc).1, hk]

/-- A simple concrete filter for the C8 witness. -/
noncomputable def exKF : KFState where
  x := fun _ => 0
  P := 1
  F := 1
  Q := 1
  H := 1
  R := 1

/-- A concrete Localized state with attached filter for the C8 witness. -/
noncomputable def exStC8 : LocState where
  localized := true
  idx_loc := 7
  prev_v := (1, 0)
  measured_positions := List.replicate 30 (some (((1:ℝ), (0:ℝ)), ((0:ℝ), (1:ℝ))))
  chosen_measurements := List.replicate 30 (some ((0:ℝ), (0:ℝ)))
  estimated_positions := List.replicate 30 ((0:ℝ), (0:ℝ))
  kf := some exKF

/-- A concrete step input for the C8 witness. -/
noncomputable def exInpC8 : StepInput where
  r := 1
  dr := 0
  v := (1, 0)
  anchor := (0, 0)

/-- Witness for C8 at a concrete Localized state with filter, loop index 9. -/
theorem C8_filter_usage_witness :
    (exStC8.kf = some exKF ∧
     exStC8.measured_positions.getD (9 - 1) none = some ((1, 0), (0, 1)) ∧
     exStC8.localized = true ∧ 9 < exStC8.estimated_positions.length) ∧
    ((stepRun exStC8 exInpC8 9).kf = some (fusedKF exKF exStC8 exInpC8 9) ∧
     (stepRun exStC8 exInpC8 9).estimated_positions.getD 9 (0, 0) =
       ((fusedKF exKF exStC8 exInpC8 9).x 0, (fusedKF exKF exStC8 exInpC8 9).x 1)) := by
  have hprev : exStC8.measured_positions.getD (9 - 1) none =
      some (((1:ℝ), (0:ℝ)), ((0:ℝ), (1:ℝ))) := by
    simp [exStC8, List.getD_eq_getElem?_getD, List.getElem?_replicate]
  have hlen : 9 < exStC8.estimated_positions.length := by simp [exStC8]
  have hmain := C8_filter_usage exStC8 exInpC8 9 exKF (1, 0) (0, 1) rfl hprev
  exact ⟨⟨rfl, hprev, rfl, hlen⟩, hmain.1 rfl, hmain.2.1 rfl hlen⟩

/-- A filter configuration whose covariance is not positive semidefinite,
for claim C7. -/
noncomputable def badKF : KFState where
  x := fun _ => 0
  P := -1
  F := 1
  Q := 1
  H := 1
  R := 1

/-- C7 (code evaluation): `MotionBasedLocalization.__init__` performs no
validation of an attached filter — a filter whose covariance `P = -I` is
not positive semidefinite, yet construction succeeds and stores it as
given; nothing fails before the run. -/
theorem C7_no_filter_validation_at_init :
    (mbl_init 50 (some badKF) false (0, 0) (0, 0) (1, 1)).kf = some badKF ∧
    ¬ badKF.P.PosSemidef := by
  constructor
  · rfl
  · intro hpsd
    have h2 := hpsd.2 (fun _ => 1)
    simp only [badKF, Matrix.neg_mulVec, Matrix.mulVec_one] at h2
    rw [Matrix.dotProduct] at h2
    simp [Fin.sum_univ_four] at h2
    norm_num at h2

/-! ### Initial defaults of the history arrays (claims C9, C10) -/

/-- A step input whose velocity equals the previous one (no trigger), for
the C9 counterexample and witness. -/
noncomputable def exInpC9 : StepInput where
  r := 1
  dr := 0
  v := (1, 1)
  anchor := (0, 0)

/-- A concrete Unlocalized state for the C9 witness. -/
noncomputable def exStC9 : LocState where
  localized := false
  idx_loc := 0
  prev_v := (1, 1)
  measured_positions := List.replicate 30 (some (((0:ℝ), (0:ℝ)), ((0:ℝ), (0:ℝ))))
  chosen_measurements := List.replicate 30 (some ((0:ℝ), (0:ℝ)))
  estimated_positions := List.replicate 30 ((0:ℝ), (0:ℝ))
  kf := none

/-- C9 counterexample: in a run that never localizes, the estimates are NOT
explicitly undefined — already at construction the step-0 estimate is the
numeric default `(0, 0)` (while the chosen-measurement array does carry an
undefined marker at index 0), and after an Unlocalized step the step-1
estimate and chosen measurement are likewise the numeric default `(0, 0)`. -/
theorem C9_counterexample_defaults_are_numeric :
    (mbl_init 30 none false (3, 2) (0, 0) (1, 1)).localized = false ∧
    (mbl_init 30 none false (3, 2) (0, 0) (1, 1)).estimated_positions.getD 0 (1, 1) =
      (0, 0) ∧
    (stepRun (mbl_init 30 none false (3, 2) (0, 0) (1, 1)) exInpC9 1).localized = false ∧
    (stepRun (mbl_init 30 none false (3, 2) (0, 0) (1, 1)) exInpC9 1).estimated_positions.getD
      1 (1, 1) = (0, 0) ∧
    (stepRun (mbl_init 30 none false (3, 2) (0, 0) (1, 1)) exInpC9 1).chosen_measurements.getD
      1 none = some (0, 0) := by
  have hloc : (mbl_init 30 none false (3, 2) (0, 0) (1, 1)).localized = false := rfl
  have hnc : ¬(cos_similarity (mbl_init 30 none false (3, 2) (0, 0) (1, 1)).prev_v
      exInpC9.v < 0.97 ∧ 20 < 1) := fun hcon => absurd hcon.2 (by norm_num)
  obtain ⟨hkf, hest, hch⟩ := stepRun_no_trigger (mbl_init 30 none false (3, 2) (0, 0) (1, 1))
    exInpC9 1 hloc hnc
  refine ⟨hloc, ?_, ?_, ?_, ?_⟩
  · simp [mbl_init, List.getD_eq_getElem?_getD, List.getElem?_replicate]
  · rw [(stepRun_unlocalized _ exInpC9 1 hloc).1]
    exact decide_eq_false hnc
  · rw [hest]
    simp [mbl_init, List.getD_eq_getElem?_getD, List.getElem?_replicate]
  · rw [hch]
    have hne : (0 : ℕ) ≠ 1 := by norm_num
    show ((List.replicate 30 (some ((0:ℝ), (0:ℝ)))).set 0 none).getD 1 none = some (0, 0)
    rw [getD_set_ne _ _ _ hne]
    simp [List.getD_eq_getElem?_getD, List.getElem?_replicate]

/-- C9, amended: index 0 of the candidate-pair and chosen-measurement
arrays holds the NaN (undefined) marker, but the estimate array is
zero-initialized: all its entries — including step 0 and every step before
localization — are the numeric default `(0, 0)`, and an Unlocalized step
without a trigger leaves both the estimates and the chosen measurements
unchanged, so in a run that never localizes they all stay numeric
defaults rather than undefined. -/
theorem C9_amended_numeric_defaults (st : LocState) (inp : StepInput) (i : ℕ)
    (h : st.localized = false)
    (hnc : ¬(cos_similarity st.prev_v inp.v < 0.97 ∧ 20 < i)) :
    (∀ (n : ℕ) (kf0 : Option KFState) (tp ap v0 : ℝ × ℝ),
      (mbl_init (n + 1) kf0 false tp ap v0).chosen_measurements.getD 0 (some (1, 1)) =
        none ∧
      (mbl_init (n + 1) kf0 false tp ap v0).measured_positions.getD 0
        (some ((1, 1), (1, 1))) = none ∧
      ∀ j, (mbl_init (n + 1) kf0 false tp ap v0).estimated_positions.getD j (0, 0) =
        (0, 0)) ∧
    ((stepRun st inp i).localized = false ∧
     (stepRun st inp i).estimated_positions = st.estimated_positions ∧
     (stepRun st inp i).chosen_measurements = st.chosen_measurements) := by
  constructor
  · intro n kf0 tp ap v0
    refine ⟨?_, ?_, ?_⟩
    · show ((List.replicate (n + 1) (some ((0:ℝ), (0:ℝ)))).set 0 none).getD 0
        (some (1, 1)) = none
      rw [getD_set_self]
      simp
    · show ((List.replicate (n + 1)
        (some (((0:ℝ), (0:ℝ)), ((0:ℝ), (0:ℝ))))).set 0 none).getD 0
        (some ((1, 1), (1, 1))) = none
      rw [getD_set_self]
      simp
    · intro j
      show (List.replicate (n + 1) ((0:ℝ), (0:ℝ))).getD j (0, 0) = (0, 0)
      by_cases hj : j < n + 1 <;>
        simp [List.getD_eq_getElem?_getD, List.getElem?_replicate, hj]
  · obtain ⟨hkf, hest, hch⟩ := stepRun_no_trigger st inp i h hnc
    refine ⟨?_, hest, hch⟩
    rw [(stepRun_unlocalized st inp i h).1]
    exact decide_eq_false hnc

/-- Witness for the amended C9 at a concrete Unlocalized state, step 1. -/
theorem C9_amended_numeric_defaults_witness :
    (exStC9.localized = false ∧
     ¬(cos_similarity exStC9.prev_v exInpC9.v < 0.97 ∧ 20 < 1)) ∧
    ((∀ (n : ℕ) (kf0 : Option KFState) (tp ap v0 : ℝ × ℝ),
      (mbl_init (n + 1) kf0 false tp ap v0).chosen_measurements.getD 0 (some (1, 1)) =
        none ∧
      (mbl_init (n + 1) kf0 false tp ap v0).measured_positions.getD 0
        (some ((1, 1), (1, 1))) = none ∧
      ∀ j, (mbl_init (n + 1) kf0 false tp ap v0).estimated_positions.getD j (0, 0) =
        (0, 0)) ∧
    ((stepRun exStC9 exInpC9 1).localized = false ∧
     (stepRun exStC9 exInpC9 1).estimated_positions = exStC9.estimated_positions ∧
     (stepRun exStC9 exInpC9 1).chosen_measurements = exStC9.chosen_measurements)) := by
  have hnc : ¬(cos_similarity exStC9.prev_v exInpC9.v < 0.97 ∧ 20 < 1) :=
    fun hcon => absurd hcon.2 (by norm_num)
  exact ⟨⟨rfl, hnc⟩, C9_amended_numeric_defaults exStC9 exInpC9 1 rfl hnc⟩

/-- A concrete Localized, filterless state for the C10 witness. -/
noncomputable def exStC10 : LocState where
  localized := true
  idx_loc := 0
  prev_v := (1, 1)
  measured_positions := List.replicate 30 (some (((0:ℝ), (0:ℝ)), ((0:ℝ), (0:ℝ))))
  chosen_measurements := List.replicate 30 (some ((0:ℝ), (0:ℝ)))
  estimated_positions := List.replicate 30 ((0:ℝ), (0:ℝ))
  kf := none

/-- A concrete step input for the C10 witness. -/
noncomputable def exInpC10 : StepInput where
  r := 1
  dr := 0
  v := (1, 1)
  anchor := (5, 5)

/-- C10: constructing with `known_initial_pos = true` yields a state that
is already Localized with localization index 0 and a step-0 estimate equal
to the target position minus the anchor position (an anchor-relative
offset), whereas the estimate of any later (filterless) Localized step is
one of the two candidates, each of which carries the anchor position as an
additive term. -/
theorem C10_known_initial_pos_offset (cnt : ℕ) (kf0 : Option KFState)
    (tp ap v0 : ℝ × ℝ) (st : LocState) (inp : StepInput) (i : ℕ)
    (h : st.localized = true) (hkf : st.kf = none)
    (hlen : i < st.estimated_positions.length) :
    (mbl_init (cnt + 1) kf0 true tp ap v0).localized = true ∧
    (mbl_init (cnt + 1) kf0 true tp ap v0).idx_loc = 0 ∧
    (mbl_init (cnt + 1) kf0 true tp ap v0).estimated_positions.getD 0 (1, 1) =
      (tp.1 - ap.1, tp.2 - ap.2) ∧
    ((stepRun st inp i).estimated_positions.getD i (0, 0) =
        (calculate_possible_positions inp.r inp.dr inp.v inp.anchor).1 ∨
     (stepRun st inp i).estimated_positions.getD i (0, 0) =
        (calculate_possible_positions inp.r inp.dr inp.v inp.anchor).2) ∧
    (calculate_possible_positions inp.r inp.dr inp.v inp.anchor).1 =
      (inp.r * Real.cos (arctan2 inp.v.2 inp.v.1 +
          Real.arccos (clamp (inp.dr / norm2 inp.v) (-1) 1)) + inp.anchor.1,
       inp.r * Real.sin (arctan2 inp.v.2 inp.v.1 +
          Real.arccos (clamp (inp.dr / norm2 inp.v) (-1) 1)) + inp.anchor.2) ∧
    (calculate_possible_positions inp.r inp.dr inp.v inp.anchor).2 =
      (inp.r * Real.cos (arctan2 inp.v.2 inp.v.1 -
          Real.arccos (clamp (inp.dr / norm2 inp.v) (-1) 1)) + inp.anchor.1,
       inp.r * Real.sin (arctan2 inp.v.2 inp.v.1 -
          Real.arccos (clamp (inp.dr / norm2 inp.v) (-1) 1)) + inp.anchor.2) := by
  refine ⟨rfl, rfl, ?_, ?_, rfl, rfl⟩
  · show ((List.replicate (cnt + 1) ((0:ℝ), (0:ℝ))).set 0
      (tp.1 - ap.1, tp.2 - ap.2)).getD 0 (1, 1) = (tp.1 - ap.1, tp.2 - ap.2)
    rw [getD_set_self]
    simp
  · rw [stepRun_localized_est_nokf st inp i h hkf, getD_set_self _ _ _ _ hlen,
      closest_to_pair]
    split_ifs with hcmp
    · exact Or.inr rfl
    · exact Or.inl rfl

/-- Witness for C10 at a concrete Localized filterless state, step 3. -/
theorem C10_known_initial_pos_offset_witness :
    (exStC10.localized = true ∧ exStC10.kf = none ∧
     3 < exStC10.estimated_positions.length) ∧
    ((mbl_init (9 + 1) none true (3, 2) (1, 1) (1, 1)).localized = true ∧
     (mbl_init (9 + 1) none true (3, 2) (1, 1) (1, 1)).idx_loc = 0 ∧
     (mbl_init (9 + 1) none true (3, 2) (1, 1) (1, 1)).estimated_positions.getD 0 (1, 1) =
       (((3:ℝ), (2:ℝ)).1 - ((1:ℝ), (1:ℝ)).1, ((3:ℝ), (2:ℝ)).2 - ((1:ℝ), (1:ℝ)).2) ∧
     ((stepRun exStC10 exInpC10 3).estimated_positions.getD 3 (0, 0) =
        (calculate_possible_positions exInpC10.r exInpC10.dr exInpC10.v exInpC10.anchor).1 ∨
      (stepRun exStC10 exInpC10 3).estimated_positions.getD 3 (0, 0) =
        (calculate_possible_positions exInpC10.r exInpC10.dr exInpC10.v exInpC10.anchor).2) ∧
     (calculate_possible_positions exInpC10.r exInpC10.dr exInpC10.v exInpC10.anchor).1 =
       (exInpC10.r * Real.cos (arctan2 exInpC10.v.2 exInpC10.v.1 +
           Real.arccos (clamp (exInpC10.dr / norm2 exInpC10.v) (-1) 1)) + exInpC10.anchor.1,
        exInpC10.r * Real.sin (arctan2 exInpC10.v.2 exInpC10.v.1 +
           Real.arccos (clamp (exInpC10.dr / norm2 exInpC10.v) (-1) 1)) + exInpC10.anchor.2) ∧
     (calculate_possible_positions exInpC10.r exInpC10.dr exInpC10.v exInpC10.anchor).2 =
       (exInpC10.r * Real.cos (arctan2 exInpC10.v.2 exInpC10.v.1 -
           Real.arccos (clamp (exInpC10.dr / norm2 exInpC10.v) (-1) 1)) + exInpC10.anchor.1,
        exInpC10.r * Real.sin (arctan2 exInpC10.v.2 exInpC10.v.1 -
           Real.arccos (clamp (exInpC10.dr / norm2 exInpC10.v) (-1) 1)) + exInpC10.anchor.2)) := by
  have hlen : 3 < exStC10.estimated_positions.length := by simp [exStC10]
  exact ⟨⟨rfl, rfl, hlen⟩,
    C10_known_initial_pos_offset 9 none (3, 2) (1, 1) (1, 1) exStC10 exInpC10 3
      rfl rfl hlen⟩

end SALoc
